import Mathlib

set_option linter.all false

namespace Goenums

/-- Decidable equality of fallible results, so concrete codec outcomes can
be checked by evaluation. -/
instance instDecEqExcept {ε α : Type} [DecidableEq ε] [DecidableEq α] :
    DecidableEq (Except ε α)
  | .ok a, .ok b =>
    if h : a = b then .isTrue (congrArg Except.ok h)
    else .isFalse fun hc => h (Except.ok.inj hc)
  | .error a, .error b =>
    if h : a = b then .isTrue (congrArg Except.error h)
    else .isFalse fun hc => h (Except.error.inj hc)
  | .ok _, .error _ => .isFalse fun hc => Except.noConfusion hc
  | .error _, .ok _ => .isFalse fun hc => Except.noConfusion hc

/-- Go primitive kinds supported by the serde core: the dispatch set of the
type switches in the primitive codec (`anyToString`, `parseStringValue`,
`anyToBinary`, `parseBinaryValue`) and of the reflection `Kind` switches in
the SQL scanner. -/
inductive Kind
  | kInt
  | kInt8
  | kInt16
  | kInt32
  | kInt64
  | kUInt
  | kUInt8
  | kUInt16
  | kUInt32
  | kUInt64
  | kFloat32
  | kFloat64
  | kBool
  | kString
  | kBytes
deriving DecidableEq, Repr

/-- A Go string is an arbitrary byte sequence; we model both `string` and
`[]byte` values as lists of bytes. -/
abbrev GoStr := List Nat

/-- Dynamic Go values flowing through the codecs. Signed integers carry `Int`,
unsigned integers carry `Nat`; `float32`/`float64` carry their IEEE-754 bit
patterns (the binary codec moves floats bit-exactly via `math.Float32bits` /
`math.Float64frombits`, so the bit pattern is the faithful observable; the
decimal formatting of floats is not modeled). -/
inductive GoVal
  | vInt (v : Int)
  | vInt8 (v : Int)
  | vInt16 (v : Int)
  | vInt32 (v : Int)
  | vInt64 (v : Int)
  | vUInt (v : Nat)
  | vUInt8 (v : Nat)
  | vUInt16 (v : Nat)
  | vUInt32 (v : Nat)
  | vUInt64 (v : Nat)
  | vFloat32 (bits : Nat)
  | vFloat64 (bits : Nat)
  | vBool (b : Bool)
  | vString (s : GoStr)
  | vBytes (bs : GoStr)
deriving DecidableEq, Repr

/-- The kind of a dynamic value (what a Go type switch observes). -/
def GoVal.kind : GoVal → Kind
  | .vInt _ => .kInt
  | .vInt8 _ => .kInt8
  | .vInt16 _ => .kInt16
  | .vInt32 _ => .kInt32
  | .vInt64 _ => .kInt64
  | .vUInt _ => .kUInt
  | .vUInt8 _ => .kUInt8
  | .vUInt16 _ => .kUInt16
  | .vUInt32 _ => .kUInt32
  | .vUInt64 _ => .kUInt64
  | .vFloat32 _ => .kFloat32
  | .vFloat64 _ => .kFloat64
  | .vBool _ => .kBool
  | .vString _ => .kString
  | .vBytes _ => .kBytes

/-- In-range ("well-formed") values: each payload fits its Go type. `int` and
`uint` are modeled as 64-bit, matching the source's comment that they are
stored uniformly as 64 bits. -/
def GoVal.wf : GoVal → Bool
  | .vInt v => decide (-(2 ^ 63) ≤ v ∧ v ≤ 2 ^ 63 - 1)
  | .vInt8 v => decide (-(2 ^ 7) ≤ v ∧ v ≤ 2 ^ 7 - 1)
  | .vInt16 v => decide (-(2 ^ 15) ≤ v ∧ v ≤ 2 ^ 15 - 1)
  | .vInt32 v => decide (-(2 ^ 31) ≤ v ∧ v ≤ 2 ^ 31 - 1)
  | .vInt64 v => decide (-(2 ^ 63) ≤ v ∧ v ≤ 2 ^ 63 - 1)
  | .vUInt v => decide (v < 2 ^ 64)
  | .vUInt8 v => decide (v < 2 ^ 8)
  | .vUInt16 v => decide (v < 2 ^ 16)
  | .vUInt32 v => decide (v < 2 ^ 32)
  | .vUInt64 v => decide (v < 2 ^ 64)
  | .vFloat32 bits => decide (bits < 2 ^ 32)
  | .vFloat64 bits => decide (bits < 2 ^ 64)
  | .vBool _ => true
  | .vString s => s.all (fun b => decide (b < 256))
  | .vBytes bs => bs.all (fun b => decide (b < 256))

/-- Byte width of each fixed-width kind (`none` for the variable-length
string and byte-sequence kinds). -/
def Kind.width : Kind → Option Nat
  | .kInt => some 8
  | .kInt8 => some 1
  | .kInt16 => some 2
  | .kInt32 => some 4
  | .kInt64 => some 8
  | .kUInt => some 8
  | .kUInt8 => some 1
  | .kUInt16 => some 2
  | .kUInt32 => some 4
  | .kUInt64 => some 8
  | .kFloat32 => some 4
  | .kFloat64 => some 8
  | .kBool => some 1
  | .kString => none
  | .kBytes => none

/-- The signed-integer kinds (the `reflect.Int*` family). -/
def Kind.isSigned : Kind → Bool
  | .kInt | .kInt8 | .kInt16 | .kInt32 | .kInt64 => true
  | _ => false

/-- The unsigned-integer kinds (the `reflect.Uint*` family). -/
def Kind.isUnsigned : Kind → Bool
  | .kUInt | .kUInt8 | .kUInt16 | .kUInt32 | .kUInt64 => true
  | _ => false

/-- The integer family: targets routed to `GenericScanner.scanInt`. -/
def Kind.isIntFamily (k : Kind) : Bool := k.isSigned || k.isUnsigned

/-- Integer or float kinds (the numeric fixed-width kinds of the claims
about the binary layout). -/
def Kind.isNumeric : Kind → Bool
  | .kFloat32 | .kFloat64 => true
  | k => k.isIntFamily

/-- The Go zero value of each kind (`var x T`). -/
def Kind.zeroVal : Kind → GoVal
  | .kInt => .vInt 0
  | .kInt8 => .vInt8 0
  | .kInt16 => .vInt16 0
  | .kInt32 => .vInt32 0
  | .kInt64 => .vInt64 0
  | .kUInt => .vUInt 0
  | .kUInt8 => .vUInt8 0
  | .kUInt16 => .vUInt16 0
  | .kUInt32 => .vUInt32 0
  | .kUInt64 => .vUInt64 0
  | .kFloat32 => .vFloat32 0
  | .kFloat64 => .vFloat64 0
  | .kBool => .vBool false
  | .kString => .vString []
  | .kBytes => .vBytes []

/-! ### Decimal text: `strconv.FormatInt` / `FormatUint` / `ParseInt` /
`ParseUint` / `FormatBool` / `ParseBool`, restricted to base 10 as the
codecs use them.  Text is a byte list (`GoStr`); 48 is the byte for the
character 0, 45 is the minus sign, 43 the plus sign. -/

/-- Byte of a decimal digit. -/
def digitByte (d : Nat) : Nat := 48 + d

/-- Numeric value of a decimal digit byte, if it is one. -/
def digitVal (b : Nat) : Option Nat :=
  if 48 ≤ b ∧ b ≤ 57 then some (b - 48) else none

/-- Read a byte string as a list of decimal digit values (most significant
first); `none` if any byte is not a digit. -/
def parseDigits : List Nat → Option (List Nat)
  | [] => some []
  | b :: bs =>
    match digitVal b, parseDigits bs with
    | some d, some ds => some (d :: ds)
    | _, _ => none

/-- Base-10 digits of `n`, most significant first, with explicit fuel so the
recursion is structural (`fuel ≥ n` suffices; `natDigitsBE` passes `n`). -/
def formatNatAux : Nat → Nat → List Nat
  | _, 0 => []
  | 0, _ + 1 => []
  | fuel + 1, n + 1 => formatNatAux fuel ((n + 1) / 10) ++ [(n + 1) % 10]

/-- Base-10 digits of `n`, most significant first (empty for 0). -/
def natDigitsBE (n : Nat) : List Nat := formatNatAux n n

/-- Value of a most-significant-first digit list. -/
def ofDigitsBE (ds : List Nat) : Nat := ds.foldl (fun a d => 10 * a + d) 0

/-- `strconv.FormatUint(n, 10)`: base-10 digits, no sign, no leading zeros. -/
def goFormatUint (n : Nat) : GoStr :=
  if n = 0 then [48] else (natDigitsBE n).map digitByte

/-- `strconv.FormatInt(v, 10)`: minus sign for negatives then the digits. -/
def goFormatInt (v : Int) : GoStr :=
  if v < 0 then 45 :: goFormatUint v.natAbs else goFormatUint v.toNat

/-- `strconv.ParseUint(s, 10, bits)`: digits only (no sign allowed), syntax
error on empty or non-digit input, range error above `2^bits - 1`. -/
def goParseUint (s : GoStr) (bits : Nat) : Except String Nat :=
  if s.isEmpty then .error "invalid syntax"
  else
    match parseDigits s with
    | none => .error "invalid syntax"
    | some ds =>
      let n := ofDigitsBE ds
      if n ≤ 2 ^ bits - 1 then .ok n else .error "value out of range"

/-- `strconv.ParseInt(s, 10, bits)`: optional sign, then digits; the value
must lie in `[-2^(bits-1), 2^(bits-1) - 1]`. -/
def goParseInt (s : GoStr) (bits : Nat) : Except String Int :=
  match s with
  | [] => .error "invalid syntax"
  | c :: rest =>
    let neg : Bool := c = 45
    let body : GoStr := if c = 43 ∨ c = 45 then rest else s
    if body.isEmpty then .error "invalid syntax"
    else
      match parseDigits body with
      | none => .error "invalid syntax"
      | some ds =>
        let un := ofDigitsBE ds
        let cutoff := 2 ^ (bits - 1)
        if !neg ∧ un ≥ cutoff then .error "value out of range"
        else if neg ∧ un > cutoff then .error "value out of range"
        else .ok (if neg then -(un : Int) else (un : Int))

/-- Byte string of an ASCII literal (used for concrete names and numerals). -/
def asciiOf (s : String) : GoStr := s.data.map Char.toNat

/-- `strconv.FormatBool`. -/
def goFormatBool (b : Bool) : GoStr :=
  if b then asciiOf "true" else asciiOf "false"

/-- `strconv.ParseBool`: accepts exactly 1, t, T, TRUE, true, True and
0, f, F, FALSE, false, False. -/
def goParseBool (s : GoStr) : Except String Bool :=
  if s ∈ [asciiOf "1", asciiOf "t", asciiOf "T", asciiOf "TRUE",
          asciiOf "true", asciiOf "True"] then .ok true
  else if s ∈ [asciiOf "0", asciiOf "f", asciiOf "F", asciiOf "FALSE",
               asciiOf "false", asciiOf "False"] then .ok false
  else .error "invalid syntax"

/-! ### Text codec: `anyToString` and `parseStringValue` (utils, type-switch
version).  Floats format via `strconv.FormatFloat` with shortest
round-trippable precision per bit width; decimal float formatting and
parsing are not modeled (floating point), so `anyToString` returns `none`
on float values and `parseStringValue` reports float targets as
unmodeled.  No theorem below touches those cases. -/

/-- `anyToString` (utils): integers in base 10, bools as true/false, strings
and byte slices pass through byte-for-byte.  `none` only on the unmodeled
float-formatting cases.  The `default` branch (JSON fallback for types
outside the primitive set) is outside the modeled kind set. -/
def anyToString : GoVal → Option GoStr
  | .vInt v => some (goFormatInt v)
  | .vInt8 v => some (goFormatInt v)
  | .vInt16 v => some (goFormatInt v)
  | .vInt32 v => some (goFormatInt v)
  | .vInt64 v => some (goFormatInt v)
  | .vUInt v => some (goFormatUint v)
  | .vUInt8 v => some (goFormatUint v)
  | .vUInt16 v => some (goFormatUint v)
  | .vUInt32 v => some (goFormatUint v)
  | .vUInt64 v => some (goFormatUint v)
  | .vFloat32 _ => none
  | .vFloat64 _ => none
  | .vBool b => some (goFormatBool b)
  | .vString s => some s
  | .vBytes bs => some bs

/-- `parseStringValue` (utils): dispatch on the target kind; integer targets
parse with the target bit width (`int` and `uint` use 64 bits), bool uses
`ParseBool`, string and byte-slice targets take the input verbatim.  Float
targets (`strconv.ParseFloat`) are not modeled; no theorem touches them. -/
def parseStringValue (str : GoStr) : Kind → Except String GoVal
  | .kInt => (goParseInt str 64).map .vInt
  | .kInt8 => (goParseInt str 8).map .vInt8
  | .kInt16 => (goParseInt str 16).map .vInt16
  | .kInt32 => (goParseInt str 32).map .vInt32
  | .kInt64 => (goParseInt str 64).map .vInt64
  | .kUInt => (goParseUint str 64).map .vUInt
  | .kUInt8 => (goParseUint str 8).map .vUInt8
  | .kUInt16 => (goParseUint str 16).map .vUInt16
  | .kUInt32 => (goParseUint str 32).map .vUInt32
  | .kUInt64 => (goParseUint str 64).map .vUInt64
  | .kFloat32 => .error "float parsing not modeled"
  | .kFloat64 => .error "float parsing not modeled"
  | .kBool => (goParseBool str).map .vBool
  | .kString => .ok (.vString str)
  | .kBytes => .ok (.vBytes str)

/-! ### Binary codec: `anyToBinary` and `parseBinaryValue` (utils,
type-switch version).  Fixed-width big-endian, `encoding/binary`
`BigEndian.PutUintN` / `UintN`. -/

/-- Big-endian byte encoding of `n` into exactly `w` bytes (the effect of
`binary.BigEndian.PutUintN`); higher bits beyond `8*w` are dropped, as the
Go conversions to `uintN` drop them. -/
def toBytesBE : Nat → Nat → List Nat
  | 0, _ => []
  | w + 1, n => toBytesBE w (n / 256) ++ [n % 256]

/-- Big-endian read of the first `w` bytes (`binary.BigEndian.UintN` reads
the data prefix even when more bytes are supplied). -/
def fromBytesBE (w : Nat) (data : List Nat) : Nat :=
  (data.take w).foldl (fun acc b => acc * 256 + b) 0

/-- Go conversion of a signed value to `uintW` (two's complement, mod
`2^w`). -/
def toUnsigned (w : Nat) (v : Int) : Nat := (v % ((2 : Int) ^ w)).toNat

/-- Go conversion of a `uintW` bit pattern back to `intW` (reinterpret the
two's-complement pattern). -/
def toSigned (w : Nat) (n : Nat) : Int :=
  if n < 2 ^ (w - 1) then (n : Int) else (n : Int) - 2 ^ w

/-- `anyToBinary` (utils): big-endian fixed-width encoding.  8-bit kinds are
one byte; `int`/`uint` are stored uniformly as 64 bits; floats emit their
IEEE bit patterns; bool is one byte 1/0; strings and byte slices emit their
bytes (the source copies the slice — copying is invisible in this
functional model).  The JSON `default` branch is outside the modeled kind
set. -/
def anyToBinary : GoVal → List Nat
  | .vInt v => toBytesBE 8 (toUnsigned 64 v)
  | .vInt8 v => [toUnsigned 8 v]
  | .vInt16 v => toBytesBE 2 (toUnsigned 16 v)
  | .vInt32 v => toBytesBE 4 (toUnsigned 32 v)
  | .vInt64 v => toBytesBE 8 (toUnsigned 64 v)
  | .vUInt v => toBytesBE 8 v
  | .vUInt8 v => [v]
  | .vUInt16 v => toBytesBE 2 v
  | .vUInt32 v => toBytesBE 4 v
  | .vUInt64 v => toBytesBE 8 v
  | .vFloat32 bits => toBytesBE 4 bits
  | .vFloat64 bits => toBytesBE 8 bits
  | .vBool b => if b then [1] else [0]
  | .vString s => s
  | .vBytes bs => bs

/-- The per-kind message of the insufficient-data error in
`parseBinaryValue`. -/
def insufficientMsg : Kind → String
  | .kInt => "insufficient data for int"
  | .kInt8 => "insufficient data for int8"
  | .kInt16 => "insufficient data for int16"
  | .kInt32 => "insufficient data for int32"
  | .kInt64 => "insufficient data for int64"
  | .kUInt => "insufficient data for uint"
  | .kUInt8 => "insufficient data for uint8"
  | .kUInt16 => "insufficient data for uint16"
  | .kUInt32 => "insufficient data for uint32"
  | .kUInt64 => "insufficient data for uint64"
  | .kFloat32 => "insufficient data for float32"
  | .kFloat64 => "insufficient data for float64"
  | .kBool => "insufficient data for bool"
  | .kString => "insufficient data for string"
  | .kBytes => "insufficient data for bytes"

/-- `parseBinaryValue` (utils): rejects empty data up front for every target
kind, then checks the per-kind width and decodes big-endian.  String and
byte-slice targets take all the bytes (the source copies; copying is
invisible here).  The JSON `default` branch is outside the modeled kinds. -/
def parseBinaryValue (data : List Nat) (k : Kind) : Except String GoVal :=
  if data.length = 0 then .error "empty binary data"
  else
    match k with
    | .kInt =>
      if data.length < 8 then .error (insufficientMsg .kInt)
      else .ok (.vInt (toSigned 64 (fromBytesBE 8 data)))
    | .kInt8 =>
      if data.length < 1 then .error (insufficientMsg .kInt8)
      else .ok (.vInt8 (toSigned 8 (fromBytesBE 1 data)))
    | .kInt16 =>
      if data.length < 2 then .error (insufficientMsg .kInt16)
      else .ok (.vInt16 (toSigned 16 (fromBytesBE 2 data)))
    | .kInt32 =>
      if data.length < 4 then .error (insufficientMsg .kInt32)
      else .ok (.vInt32 (toSigned 32 (fromBytesBE 4 data)))
    | .kInt64 =>
      if data.length < 8 then .error (insufficientMsg .kInt64)
      else .ok (.vInt64 (toSigned 64 (fromBytesBE 8 data)))
    | .kUInt =>
      if data.length < 8 then .error (insufficientMsg .kUInt)
      else .ok (.vUInt (fromBytesBE 8 data))
    | .kUInt8 =>
      if data.length < 1 then .error (insufficientMsg .kUInt8)
      else .ok (.vUInt8 (fromBytesBE 1 data))
    | .kUInt16 =>
      if data.length < 2 then .error (insufficientMsg .kUInt16)
      else .ok (.vUInt16 (fromBytesBE 2 data))
    | .kUInt32 =>
      if data.length < 4 then .error (insufficientMsg .kUInt32)
      else .ok (.vUInt32 (fromBytesBE 4 data))
    | .kUInt64 =>
      if data.length < 8 then .error (insufficientMsg .kUInt64)
      else .ok (.vUInt64 (fromBytesBE 8 data))
    | .kFloat32 =>
      if data.length < 4 then .error (insufficientMsg .kFloat32)
      else .ok (.vFloat32 (fromBytesBE 4 data))
    | .kFloat64 =>
      if data.length < 8 then .error (insufficientMsg .kFloat64)
      else .ok (.vFloat64 (fromBytesBE 8 data))
    | .kBool =>
      if data.length < 1 then .error (insufficientMsg .kBool)
      else .ok (.vBool (data.getD 0 0 != 0))
    | .kString => .ok (.vString data)
    | .kBytes => .ok (.vBytes data)

/-! ### SQL scanner: `GenericScanner` (sql.go).  A driver source value is a
dynamically-typed scalar.  A float source is modeled as the dyadic number it
denotes, written `mant / 2^scale` (every finite binary float has this form);
the only float operations the scanner performs are Go's truncating
conversion to integer and a comparison with zero, both definable on that
representation. -/

/-- A dynamically-typed source handed to `GenericScanner.Scan`.  `sNull` is
the nil driver value.  (Pointer indirection in the source unwraps to one of
these or to nil; the pointer layer itself is not modeled.)  `sFloat mant
scale` denotes the float value `mant / 2^scale`. -/
inductive ScanSrc
  | sInt (v : Int)
  | sUInt (u : Nat)
  | sFloat (mant : Int) (scale : Nat)
  | sBool (b : Bool)
  | sStr (s : GoStr)
  | sBytes (bs : GoStr)
  | sNull
deriving DecidableEq

/-- Go's conversion `int64(f)` for the float value `mant / 2^scale`:
truncation toward zero (`Int.tdiv` rounds toward zero). -/
def floatTrunc (mant : Int) (scale : Nat) : Int := mant.tdiv ((2 : Int) ^ scale)

/-- The coercion phase of `GenericScanner.scanInt`: every source is funneled
into a signed 64-bit intermediate.  Unsigned sources above `MaxInt64`
are rejected here even if the target is unsigned and could hold them. -/
def scanIntCoerce : ScanSrc → Except String Int
  | .sInt v => .ok v
  | .sUInt u =>
    if u > 2 ^ 63 - 1 then
      .error ("unsigned integer value " ++ toString u ++ " overflows int64")
    else .ok (u : Int)
  | .sFloat mant scale => .ok (floatTrunc mant scale)
  | .sBool b => .ok (if b then 1 else 0)
  | .sStr s =>
    match goParseInt s 64 with
    | .ok v => .ok v
    | .error e => .error ("failed to parse integer from string: " ++ e)
  | .sBytes bs =>
    match goParseInt bs 64 with
    | .ok v => .ok v
    | .error e => .error ("failed to parse integer from bytes: " ++ e)
  | .sNull => .error "nil source"

/-- The store phase of `GenericScanner.scanInt`: range-check the 64-bit
intermediate against the target kind and store.  `int` and `uint` bounds are
the 64-bit platform values of `math.MaxInt` / `math.MaxUint`.  (The
`uint64(i) > math.MaxUint` disjunct of the `uint` case is kept although it
can never fire, as in the source.) -/
def scanIntStore (i : Int) : Kind → Except String GoVal
  | .kInt =>
    if i > 2 ^ 63 - 1 ∨ i < -(2 ^ 63) then
      .error ("value " ++ toString i ++ " overflows int")
    else .ok (.vInt i)
  | .kInt8 =>
    if i > 2 ^ 7 - 1 ∨ i < -(2 ^ 7) then
      .error ("value " ++ toString i ++ " overflows int8")
    else .ok (.vInt8 i)
  | .kInt16 =>
    if i > 2 ^ 15 - 1 ∨ i < -(2 ^ 15) then
      .error ("value " ++ toString i ++ " overflows int16")
    else .ok (.vInt16 i)
  | .kInt32 =>
    if i > 2 ^ 31 - 1 ∨ i < -(2 ^ 31) then
      .error ("value " ++ toString i ++ " overflows int32")
    else .ok (.vInt32 i)
  | .kInt64 => .ok (.vInt64 i)
  | .kUInt =>
    if i < 0 ∨ toUnsigned 64 i > 2 ^ 64 - 1 then
      .error ("value " ++ toString i ++ " cannot be converted to uint")
    else .ok (.vUInt i.toNat)
  | .kUInt8 =>
    if i < 0 ∨ i > 2 ^ 8 - 1 then
      .error ("value " ++ toString i ++ " overflows uint8")
    else .ok (.vUInt8 i.toNat)
  | .kUInt16 =>
    if i < 0 ∨ i > 2 ^ 16 - 1 then
      .error ("value " ++ toString i ++ " overflows uint16")
    else .ok (.vUInt16 i.toNat)
  | .kUInt32 =>
    if i < 0 ∨ i > 2 ^ 32 - 1 then
      .error ("value " ++ toString i ++ " overflows uint32")
    else .ok (.vUInt32 i.toNat)
  | .kUInt64 =>
    if i < 0 then
      .error ("negative value " ++ toString i ++ " cannot be converted to uint64")
    else .ok (.vUInt64 i.toNat)
  | k => .error ("unsupported integer type: " ++ toString (repr k))

/-- `GenericScanner.scanInt`: coerce the source through an `int64`
intermediate, then range-check and store into the integer target kind. -/
def scanInt (src : ScanSrc) (k : Kind) : Except String GoVal :=
  match scanIntCoerce src with
  | .error e => .error e
  | .ok i => scanIntStore i k

/-- `GenericScanner.scanString`: string and byte-slice sources store their
bytes; every other source is a conversion error. -/
def scanString : ScanSrc → Except String GoVal
  | .sStr s => .ok (.vString s)
  | .sBytes bs => .ok (.vString bs)
  | _ => .error "cannot convert to string"

/-- `GenericScanner.scanBool`: bools pass through, numeric sources map
nonzero to true, strings and byte slices use `strconv.ParseBool`. -/
def scanBool : ScanSrc → Except String GoVal
  | .sBool b => .ok (.vBool b)
  | .sInt v => .ok (.vBool (v != 0))
  | .sUInt u => .ok (.vBool (u != 0))
  | .sFloat mant _ => .ok (.vBool (mant != 0))
  | .sStr s =>
    match goParseBool s with
    | .ok b => .ok (.vBool b)
    | .error e => .error ("failed to parse bool from string: " ++ e)
  | .sBytes bs =>
    match goParseBool bs with
    | .ok b => .ok (.vBool b)
    | .error e => .error ("failed to parse bool from bytes: " ++ e)
  | .sNull => .error "nil source"

/-- `GenericScanner.Scan`: a nil source returns success immediately, leaving
the target untouched; otherwise dispatch on the target's kind.  A byte-slice
target falls into the reflection default branch and (not being `time.Time`)
is an unsupported-target error.  `scanFloat` is reached only for float
targets on non-nil sources, which no claim exercises; its float stores
(`reflect.Value.SetFloat` with rounding to the target width) are not
modeled. -/
def Scan (src : ScanSrc) (target : GoVal) : Except String GoVal :=
  match src with
  | .sNull => .ok target
  | _ =>
    match target.kind with
    | .kString => scanString src
    | .kInt | .kInt8 | .kInt16 | .kInt32 | .kInt64
    | .kUInt | .kUInt8 | .kUInt16 | .kUInt32 | .kUInt64 => scanInt src target.kind
    | .kFloat32 | .kFloat64 => .error "float scan not modeled"
    | .kBool => scanBool src
    | .kBytes => .error "unsupported target type"

/-! ### Enum capability contract and format codecs (serde file,
`SerdeFormat` version, plus `convertToTargetType` from the reflection-based
utils file). -/

/-- Per-type serialization mode. -/
inductive Format
  | formatName
  | formatValue
deriving DecidableEq, Repr

/-- An enum member: its canonical name and its raw value. -/
abbrev Member := GoStr × GoVal

/-- A generated enum type: its raw-value kind, its serde mode, and the
static member table. -/
structure EnumType where
  kind : Kind
  serde : Format
  members : List Member

/-- Modelled from the spec: `FromName` is implemented by generated code per
enum type, which is not among the serde core sources; the capability
contract specifies exact-match lookup-by-name with found=false on a miss. -/
def EnumType.FromName (E : EnumType) (n : GoStr) : Option Member :=
  E.members.find? (fun m => decide (m.1 = n))

/-- Modelled from the spec: `FromValue` is implemented by generated code per
enum type, which is not among the serde core sources; the capability
contract specifies exact-match lookup-by-raw-value with found=false on a
miss. -/
def EnumType.FromValue (E : EnumType) (v : GoVal) : Option Member :=
  E.members.find? (fun m => decide (m.2 = v))

/-- The `src any` argument threaded into `findNameOrValue` for error
reporting: a Go string, a raw value, or the SQL driver source. -/
inductive SrcRef
  | ofStr (s : GoStr)
  | ofVal (v : GoVal)
  | ofScan (s : ScanSrc)
deriving DecidableEq

/-- Errors of the format codecs.  `unknownConstants` is
`fmt.Errorf("unknown constants %v", src)` with the value it formats;
`parseErr` carries a primitive-codec or scanner error; `decodeErr` carries
the wrapped node-decode and conversion failures of the YAML path. -/
inductive SerdeErr
  | unknownConstants (src : SrcRef)
  | parseErr (msg : String)
  | decodeErr (msg : String)
deriving DecidableEq

/-- `findNameOrValue`: resolve a candidate name (left) or raw value (right)
through the enum's lookup, failing with the unknown-constants error built
from the supplied `src` argument. -/
def findNameOrValue (E : EnumType) (cand : GoStr ⊕ GoVal) (src : SrcRef) :
    Except SerdeErr Member :=
  match cand with
  | .inl n =>
    match E.FromName n with
    | some m => .ok m
    | none => .error (.unknownConstants src)
  | .inr v =>
    match E.FromValue v with
    | some m => .ok m
    | none => .error (.unknownConstants src)

/-- `MarshalText`: in Name mode emit the instance's name verbatim; in Value
mode emit `anyToString` of the raw value. -/
def MarshalText (E : EnumType) (m : Member) : Except SerdeErr GoStr :=
  if E.serde = .formatName then .ok m.1
  else
    match anyToString m.2 with
    | some s => .ok s
    | none => .error (.parseErr "float formatting not modeled")

/-- `UnmarshalText`: in Name mode look the input up as a name (the input
itself is the `src` for error reporting); in Value mode parse the input as
the raw kind with `parseStringValue`, then look up by value with the
original input bytes as `src`. -/
def UnmarshalText (E : EnumType) (bs : GoStr) : Except SerdeErr Member :=
  if E.serde = .formatName then findNameOrValue E (.inl bs) (.ofStr bs)
  else
    match parseStringValue bs E.kind with
    | .error e => .error (.parseErr e)
    | .ok raw => findNameOrValue E (.inr raw) (.ofStr bs)

/-- `MarshalBinary`: in Name mode the name's bytes; in Value mode
`anyToBinary` of the raw value. -/
def MarshalBinary (E : EnumType) (m : Member) : Except SerdeErr (List Nat) :=
  if E.serde = .formatName then .ok m.1
  else .ok (anyToBinary m.2)

/-- `UnmarshalBinary`: in Name mode the bytes are the name; in Value mode
decode with `parseBinaryValue` and look up by value; `src` is the original
input bytes (as a string) in both modes. -/
def UnmarshalBinary (E : EnumType) (bs : List Nat) : Except SerdeErr Member :=
  if E.serde = .formatName then findNameOrValue E (.inl bs) (.ofStr bs)
  else
    match parseBinaryValue bs E.kind with
    | .error e => .error (.parseErr e)
    | .ok raw => findNameOrValue E (.inr raw) (.ofStr bs)

/-- Outcomes of `encoding/json.Unmarshal` on the input bytes, abstracted as
an oracle (the JSON reader is an external library): decoding the bytes into
a Go string, and decoding them into the raw-value type. -/
structure JsonDecoder where
  asStr : Except String GoStr
  asRaw : Except String GoVal

/-- `UnmarshalJSON`: unmarshal into a name string (Name mode) or the raw
type (Value mode) via the JSON oracle, then resolve; `src` is the original
input bytes as a string. -/
def UnmarshalJSON (E : EnumType) (bs : GoStr) (dec : JsonDecoder) :
    Except SerdeErr Member :=
  if E.serde = .formatName then
    match dec.asStr with
    | .error e => .error (.parseErr e)
    | .ok name => findNameOrValue E (.inl name) (.ofStr bs)
  else
    match dec.asRaw with
    | .error e => .error (.parseErr e)
    | .ok raw => findNameOrValue E (.inr raw) (.ofStr bs)

/-- The string payload of a scanned string target (`var name string` after a
successful `Scan`, which for a string target always stores a string). -/
def asStrVal : GoVal → GoStr
  | .vString s => s
  | _ => []

/-- `SQLScan`: scan the driver source into a string (Name mode) or into the
raw type's zero value (Value mode) with `GenericScanner.Scan`, then resolve;
`src` is the original driver source. -/
def SQLScan (E : EnumType) (src : ScanSrc) : Except SerdeErr Member :=
  if E.serde = .formatName then
    match Scan src (.vString []) with
    | .error e => .error (.parseErr e)
    | .ok nv => findNameOrValue E (.inl (asStrVal nv)) (.ofScan src)
  else
    match Scan src E.kind.zeroVal with
    | .error e => .error (.parseErr e)
    | .ok raw => findNameOrValue E (.inr raw) (.ofScan src)

/-- `convertToTargetType` (reflection-based utils file): convert a decoded
untyped value into the target.  String, bool and byte-slice targets read
`value`; for the integer, unsigned and float target families the source
does `val := v.Int()` (resp. `v.Uint()`, `v.Float()`) where `v` is the
reflection of the TARGET, so it reads the target's own current value (the
freshly zero-initialized `rawValue` at its only call site), checks it
for overflow against its own type (which cannot fire), and stores it back;
the decoded `value` is never consulted on those paths.  The overflow checks
are modeled by `GoVal.wf` on the target. -/
def convertToTargetType (value : GoVal) (target : GoVal) : Except String GoVal :=
  match target.kind with
  | .kString =>
    match value with
    | .vString s => .ok (.vString s)
    | _ =>
      match anyToString value with
      | some s => .ok (.vString s)
      | none => .error "float formatting not modeled"
  | .kInt | .kInt8 | .kInt16 | .kInt32 | .kInt64 =>
    if target.wf then .ok target else .error "value overflows target"
  | .kUInt | .kUInt8 | .kUInt16 | .kUInt32 | .kUInt64 =>
    if target.wf then .ok target else .error "value overflows target"
  | .kFloat32 | .kFloat64 =>
    if target.wf then .ok target else .error "value overflows target"
  | .kBool =>
    match value with
    | .vBool b => .ok (.vBool b)
    | .vString s =>
      match goParseBool s with
      | .ok b => .ok (.vBool b)
      | .error e => .error ("cannot convert string to bool: " ++ e)
    | _ => .error "cannot convert to bool"
  | .kBytes =>
    match value with
    | .vBytes bs => .ok (.vBytes bs)
    | .vString s => .ok (.vBytes s)
    | _ => .error "cannot convert to byte slice"

/-- Outcomes of the abstract `YAMLNode.Decode` operation on the node (the
node is supplied by the host's YAML library behind the one-method
interface): decoding into the raw type, into a string, and into an untyped
`interface` value. -/
structure YamlNode where
  decodeRaw : Except String GoVal
  decodeStr : Except String GoStr
  decodeAny : Except String GoVal

/-- `UnmarshalYAML`: Name mode decodes the node as a string and resolves by
name with the decoded string as `src`.  Value mode first tries to decode
directly into the raw type; on failure it decodes into an untyped value and
runs `convertToTargetType` into the zero-initialized raw variable.  In both
value paths the `src` passed to lookup is the (decoded or converted)
`rawValue` intermediate, not the original node content. -/
def UnmarshalYAML (E : EnumType) (node : YamlNode) : Except SerdeErr Member :=
  if E.serde = .formatName then
    match node.decodeStr with
    | .error e => .error (.decodeErr ("failed to decode YAML node as string: " ++ e))
    | .ok name => findNameOrValue E (.inl name) (.ofStr name)
  else
    match node.decodeRaw with
    | .ok raw => findNameOrValue E (.inr raw) (.ofVal raw)
    | .error e =>
      match node.decodeAny with
      | .error _ => .error (.decodeErr ("failed to decode YAML node: " ++ e))
      | .ok value =>
        match convertToTargetType value E.kind.zeroVal with
        | .error ce =>
          .error (.decodeErr ("failed to convert YAML value to target type: " ++ ce))
        | .ok raw => findNameOrValue E (.inr raw) (.ofVal raw)

/-! ### Lemmas: decimal formatting and parsing round-trips. -/

theorem digitVal_digitByte (d : Nat) (h : d < 10) : digitVal (digitByte d) = some d := by
  simp [digitVal, digitByte]
  omega

theorem parseDigits_map_digitByte (ds : List Nat) (h : ∀ d ∈ ds, d < 10) :
    parseDigits (ds.map digitByte) = some ds := by
  induction ds with
  | nil => rfl
  | cons d ds ih =>
    have hd : d < 10 := h d (by simp)
    have hds : ∀ x ∈ ds, x < 10 := fun x hx => h x (by simp [hx])
    simp [parseDigits, digitVal_digitByte d hd, ih hds]

theorem formatNatAux_digits_lt :
    ∀ fuel n d, d ∈ formatNatAux fuel n → d < 10 := by
  intro fuel
  induction fuel with
  | zero =>
    intro n d hd
    cases n <;> simp [formatNatAux] at hd
  | succ fuel ih =>
    intro n d hd
    cases n with
    | zero => simp [formatNatAux] at hd
    | succ m =>
      simp only [formatNatAux, List.mem_append, List.mem_singleton] at hd
      rcases hd with hd | hd
      · exact ih _ _ hd
      · omega

theorem ofDigitsBE_append (ds : List Nat) (d : Nat) :
    ofDigitsBE (ds ++ [d]) = 10 * ofDigitsBE ds + d := by
  simp [ofDigitsBE, List.foldl_append]

theorem formatNatAux_correct :
    ∀ fuel n, n ≤ fuel → ofDigitsBE (formatNatAux fuel n) = n := by
  intro fuel
  induction fuel with
  | zero =>
    intro n hn
    interval_cases n
    rfl
  | succ fuel ih =>
    intro n hn
    match n with
    | 0 => rfl
    | m + 1 =>
      have hdiv : (m + 1) / 10 ≤ fuel := by omega
      simp [formatNatAux, ofDigitsBE_append, ih _ hdiv]
      omega

theorem natDigitsBE_correct (n : Nat) : ofDigitsBE (natDigitsBE n) = n :=
  formatNatAux_correct n n le_rfl

theorem natDigitsBE_lt (n : Nat) : ∀ d ∈ natDigitsBE n, d < 10 :=
  fun d hd => formatNatAux_digits_lt n n d hd

theorem goFormatUint_ne_nil (n : Nat) : goFormatUint n ≠ [] := by
  by_cases h : n = 0
  · simp [goFormatUint, h]
  · simp only [goFormatUint, if_neg h, ne_eq, List.map_eq_nil]
    intro hnil
    have := natDigitsBE_correct n
    rw [hnil] at this
    exact h (by simpa [ofDigitsBE] using this.symm)

theorem goFormatUint_bytes (n : Nat) : ∀ b ∈ goFormatUint n, 48 ≤ b ∧ b ≤ 57 := by
  intro b hb
  by_cases h : n = 0
  · simp [goFormatUint, h] at hb
    omega
  · simp only [goFormatUint, if_neg h, List.mem_map] at hb
    obtain ⟨d, hd, rfl⟩ := hb
    have := natDigitsBE_lt n d hd
    simp [digitByte]
    omega

theorem parseDigits_goFormatUint (n : Nat) :
    ∃ ds, parseDigits (goFormatUint n) = some ds ∧ ofDigitsBE ds = n := by
  by_cases h : n = 0
  · exact ⟨[0], by simp [goFormatUint, h, parseDigits, digitVal], by simp [h, ofDigitsBE]⟩
  · refine ⟨natDigitsBE n, ?_, natDigitsBE_correct n⟩
    simp only [goFormatUint, if_neg h]
    exact parseDigits_map_digitByte _ (natDigitsBE_lt n)

theorem goParseUint_goFormatUint (n bits : Nat) (h : n ≤ 2 ^ bits - 1) :
    goParseUint (goFormatUint n) bits = .ok n := by
  obtain ⟨ds, hp, hv⟩ := parseDigits_goFormatUint n
  have hne : (goFormatUint n).isEmpty = false := by
    simp [List.isEmpty_iff, goFormatUint_ne_nil n]
  simp [goParseUint, hne, hp, hv, h]

theorem goParseUint_goFormatUint_overflow (n bits : Nat) (h : 2 ^ bits - 1 < n) :
    goParseUint (goFormatUint n) bits = .error "value out of range" := by
  obtain ⟨ds, hp, hv⟩ := parseDigits_goFormatUint n
  have hne : (goFormatUint n).isEmpty = false := by
    simp [List.isEmpty_iff, goFormatUint_ne_nil n]
  simp [goParseUint, hne, hp, hv]
  omega

/-- The value of `goParseInt` on a formatted integer, in both the in-range
and the out-of-range case (a formatted value never has a syntax error; the
range check decides the outcome). -/
theorem goParseInt_goFormatInt_eq (bits : Nat) (v : Int) :
    goParseInt (goFormatInt v) bits =
      if -(2 ^ (bits - 1)) ≤ v ∧ v ≤ 2 ^ (bits - 1) - 1 then .ok v
      else .error "value out of range" := by
  have hcast : ((2 ^ (bits - 1) : Nat) : Int) = 2 ^ (bits - 1) := by push_cast; rfl
  rcases lt_or_ge v 0 with hneg | hpos
  · -- negative: minus sign then the digits of the absolute value
    obtain ⟨ds, hp, hv⟩ := parseDigits_goFormatUint v.natAbs
    simp only [goFormatInt, if_pos hneg, goParseInt]
    simp [hp, goFormatUint_ne_nil v.natAbs, hv, -Int.natCast_natAbs]
    split_ifs <;> first
      | rfl
      | (congr 1; omega)
      | (exfalso; omega)
  · -- nonnegative: digits only, first byte is a digit so no sign is consumed
    obtain ⟨ds, hp, hv⟩ := parseDigits_goFormatUint v.toNat
    rcases hs : goFormatUint v.toNat with _ | ⟨c, rest⟩
    · exact absurd hs (goFormatUint_ne_nil _)
    have hcb : 48 ≤ c ∧ c ≤ 57 := goFormatUint_bytes v.toNat c (by rw [hs]; simp)
    have h45 : (c = 45) = False := eq_false (by omega)
    have h43 : (c = 43) = False := eq_false (by omega)
    rw [hs] at hp
    simp only [goFormatInt, if_neg (by omega : ¬ v < 0), hs, goParseInt]
    simp [hp, h45, h43, hv]
    split_ifs <;> first
      | rfl
      | (congr 1; omega)
      | (exfalso; omega)

theorem goParseInt_goFormatInt (bits : Nat) (v : Int)
    (h1 : -(2 ^ (bits - 1)) ≤ v) (h2 : v ≤ 2 ^ (bits - 1) - 1) :
    goParseInt (goFormatInt v) bits = .ok v := by
  rw [goParseInt_goFormatInt_eq, if_pos ⟨h1, h2⟩]

theorem goParseInt_goFormatInt_overflow (bits : Nat) (v : Int)
    (h : v < -(2 ^ (bits - 1)) ∨ 2 ^ (bits - 1) - 1 < v) :
    goParseInt (goFormatInt v) bits = .error "value out of range" := by
  rw [goParseInt_goFormatInt_eq, if_neg (by omega)]

theorem goParseBool_goFormatBool (b : Bool) : goParseBool (goFormatBool b) = .ok b := by
  cases b <;> rfl

/-- `find?` returns the sole element satisfying the predicate. -/
theorem find?_unique {α : Type} (p : α → Bool) (a : α) :
    ∀ l : List α, a ∈ l → p a = true → (∀ b ∈ l, p b = true → b = a) →
      l.find? p = some a := by
  intro l
  induction l with
  | nil => intro h; simp at h
  | cons x l ih =>
    intro hmem hpa hu
    by_cases hx : p x = true
    · rw [List.find?_cons_of_pos _ hx]
      exact congrArg some (hu x (by simp) hx)
    · have hax : a ≠ x := fun h => hx (h ▸ hpa)
      have hmem2 : a ∈ l := by
        rcases hmem with _ | h
        · exact absurd rfl hax
        · assumption
      rw [List.find?_cons_of_neg _ hx]
      exact ih hmem2 hpa fun b hb hpb => hu b (by simp [hb]) hpb

/-! ### Lemmas: big-endian bytes and two's complement. -/

theorem toBytesBE_length (w n : Nat) : (toBytesBE w n).length = w := by
  induction w generalizing n with
  | zero => rfl
  | succ w ih => simp [toBytesBE, ih]

theorem foldl_toBytesBE (w : Nat) :
    ∀ n a, (toBytesBE w n).foldl (fun acc b => acc * 256 + b) a =
      a * 256 ^ w + n % 256 ^ w := by
  induction w with
  | zero => intro n a; simp [toBytesBE, Nat.mod_one]
  | succ w ih =>
    intro n a
    rw [toBytesBE, List.foldl_append]
    simp only [List.foldl_cons, List.foldl_nil, ih]
    have h256 : (256 : Nat) ^ (w + 1) = 256 * 256 ^ w := by ring
    rw [h256, Nat.mod_mul]
    ring

theorem fromBytesBE_toBytesBE (w n : Nat) (h : n < 256 ^ w) :
    fromBytesBE w (toBytesBE w n) = n := by
  have htake : (toBytesBE w n).take w = toBytesBE w n :=
    List.take_of_length_le (le_of_eq (toBytesBE_length w n))
  rw [fromBytesBE, htake, foldl_toBytesBE]
  simp [Nat.mod_eq_of_lt h]

theorem toUnsigned_lt (w : Nat) (v : Int) : toUnsigned w v < 2 ^ w := by
  have hpos : (0 : Int) < 2 ^ w := by positivity
  have h1 : v % ((2 : Int) ^ w) < 2 ^ w := Int.emod_lt_of_pos v hpos
  have hc : ((2 ^ w : Nat) : Int) = (2 : Int) ^ w := by push_cast; rfl
  rw [toUnsigned]
  omega

theorem toSigned_toUnsigned (w : Nat) (hw : 1 ≤ w) (v : Int)
    (h1 : -(2 ^ (w - 1)) ≤ v) (h2 : v ≤ 2 ^ (w - 1) - 1) :
    toSigned w (toUnsigned w v) = v := by
  have hsplit : (2 : Int) ^ w = 2 ^ (w - 1) * 2 := by
    rw [← pow_succ]
    congr 1
    omega
  have hpos : (0 : Int) < 2 ^ w := by positivity
  have hlow : 0 ≤ v % ((2 : Int) ^ w) := Int.emod_nonneg v (by positivity)
  have hhigh : v % ((2 : Int) ^ w) < 2 ^ w := Int.emod_lt_of_pos v hpos
  have hcw : ((2 ^ w : Nat) : Int) = (2 : Int) ^ w := by push_cast; rfl
  have hcw1 : ((2 ^ (w - 1) : Nat) : Int) = (2 : Int) ^ (w - 1) := by push_cast; rfl
  rcases le_or_lt 0 v with hv | hv
  · have hmod : v % ((2 : Int) ^ w) = v := Int.emod_eq_of_lt hv (by omega)
    rw [toSigned, toUnsigned, hmod]
    rw [if_pos (by omega)]
    omega
  · have hmod : v % ((2 : Int) ^ w) = v + 2 ^ w := by
      have hg : (v + 2 ^ w) % ((2 : Int) ^ w) = v % ((2 : Int) ^ w) := by
        have hme := Int.add_mul_emod_self_left (a := v) (b := (2 : Int) ^ w) (c := 1)
        simpa using hme
      have hsmall : (v + 2 ^ w) % ((2 : Int) ^ w) = v + 2 ^ w :=
        Int.emod_eq_of_lt (by omega) (by omega)
      omega
    rw [toSigned, toUnsigned, hmod]
    rw [if_neg (by omega)]
    omega

/-! ### Round-trip helper lemmas over the primitive codec. -/

/-- Text round-trip at the value's own kind, for every value on which the
text codec is modeled (everything except the float-formatting cases). -/
theorem parseString_anyToString (v : GoVal) (hwf : v.wf = true) :
    ∀ s, anyToString v = some s → parseStringValue s v.kind = .ok v := by
  intro s hs
  cases v with
  | vInt x =>
    simp only [GoVal.wf, decide_eq_true_eq] at hwf
    simp only [anyToString, Option.some.injEq] at hs
    subst hs
    simp [GoVal.kind, parseStringValue, Except.map,
      goParseInt_goFormatInt 64 x (by omega) (by omega)]
  | vInt8 x =>
    simp only [GoVal.wf, decide_eq_true_eq] at hwf
    simp only [anyToString, Option.some.injEq] at hs
    subst hs
    simp [GoVal.kind, parseStringValue, Except.map,
      goParseInt_goFormatInt 8 x (by omega) (by omega)]
  | vInt16 x =>
    simp only [GoVal.wf, decide_eq_true_eq] at hwf
    simp only [anyToString, Option.some.injEq] at hs
    subst hs
    simp [GoVal.kind, parseStringValue, Except.map,
      goParseInt_goFormatInt 16 x (by omega) (by omega)]
  | vInt32 x =>
    simp only [GoVal.wf, decide_eq_true_eq] at hwf
    simp only [anyToString, Option.some.injEq] at hs
    subst hs
    simp [GoVal.kind, parseStringValue, Except.map,
      goParseInt_goFormatInt 32 x (by omega) (by omega)]
  | vInt64 x =>
    simp only [GoVal.wf, decide_eq_true_eq] at hwf
    simp only [anyToString, Option.some.injEq] at hs
    subst hs
    simp [GoVal.kind, parseStringValue, Except.map,
      goParseInt_goFormatInt 64 x (by omega) (by omega)]
  | vUInt x =>
    simp only [GoVal.wf, decide_eq_true_eq] at hwf
    simp only [anyToString, Option.some.injEq] at hs
    subst hs
    simp [GoVal.kind, parseStringValue, Except.map, goParseUint_goFormatUint x 64 (by omega)]
  | vUInt8 x =>
    simp only [GoVal.wf, decide_eq_true_eq] at hwf
    simp only [anyToString, Option.some.injEq] at hs
    subst hs
    simp [GoVal.kind, parseStringValue, Except.map, goParseUint_goFormatUint x 8 (by omega)]
  | vUInt16 x =>
    simp only [GoVal.wf, decide_eq_true_eq] at hwf
    simp only [anyToString, Option.some.injEq] at hs
    subst hs
    simp [GoVal.kind, parseStringValue, Except.map, goParseUint_goFormatUint x 16 (by omega)]
  | vUInt32 x =>
    simp only [GoVal.wf, decide_eq_true_eq] at hwf
    simp only [anyToString, Option.some.injEq] at hs
    subst hs
    simp [GoVal.kind, parseStringValue, Except.map, goParseUint_goFormatUint x 32 (by omega)]
  | vUInt64 x =>
    simp only [GoVal.wf, decide_eq_true_eq] at hwf
    simp only [anyToString, Option.some.injEq] at hs
    subst hs
    simp [GoVal.kind, parseStringValue, Except.map, goParseUint_goFormatUint x 64 (by omega)]
  | vFloat32 bits => simp [anyToString] at hs
  | vFloat64 bits => simp [anyToString] at hs
  | vBool b =>
    simp only [anyToString, Option.some.injEq] at hs
    subst hs
    simp [GoVal.kind, parseStringValue, Except.map, goParseBool_goFormatBool]
  | vString s0 =>
    simp only [anyToString, Option.some.injEq] at hs
    subst hs
    rfl
  | vBytes bs =>
    simp only [anyToString, Option.some.injEq] at hs
    subst hs
    rfl

/-- Binary round-trip at the value's own kind, for every in-range value
whose encoding is non-empty (only the empty string and the empty byte
sequence encode to zero bytes). -/
theorem parseBinary_anyToBinary (v : GoVal) (hwf : v.wf = true)
    (hne : anyToBinary v ≠ []) :
    parseBinaryValue (anyToBinary v) v.kind = .ok v := by
  cases v with
  | vInt x =>
    simp only [GoVal.wf, decide_eq_true_eq] at hwf
    have hu := toUnsigned_lt 64 x
    have hfb : fromBytesBE 8 (toBytesBE 8 (toUnsigned 64 x)) = toUnsigned 64 x :=
      fromBytesBE_toBytesBE 8 _ (by norm_num at hu ⊢; omega)
    simp [anyToBinary, parseBinaryValue, GoVal.kind, toBytesBE_length, hfb,
      toSigned_toUnsigned 64 (by norm_num) x (by omega) (by omega)]
  | vInt8 x =>
    simp only [GoVal.wf, decide_eq_true_eq] at hwf
    have hu := toUnsigned_lt 8 x
    have hfb : fromBytesBE 1 [toUnsigned 8 x] = toUnsigned 8 x := by
      simp [fromBytesBE]
    simp [anyToBinary, parseBinaryValue, GoVal.kind, hfb,
      toSigned_toUnsigned 8 (by norm_num) x (by omega) (by omega)]
  | vInt16 x =>
    simp only [GoVal.wf, decide_eq_true_eq] at hwf
    have hu := toUnsigned_lt 16 x
    have hfb : fromBytesBE 2 (toBytesBE 2 (toUnsigned 16 x)) = toUnsigned 16 x :=
      fromBytesBE_toBytesBE 2 _ (by norm_num at hu ⊢; omega)
    simp [anyToBinary, parseBinaryValue, GoVal.kind, toBytesBE_length, hfb,
      toSigned_toUnsigned 16 (by norm_num) x (by omega) (by omega)]
  | vInt32 x =>
    simp only [GoVal.wf, decide_eq_true_eq] at hwf
    have hu := toUnsigned_lt 32 x
    have hfb : fromBytesBE 4 (toBytesBE 4 (toUnsigned 32 x)) = toUnsigned 32 x :=
      fromBytesBE_toBytesBE 4 _ (by norm_num at hu ⊢; omega)
    simp [anyToBinary, parseBinaryValue, GoVal.kind, toBytesBE_length, hfb,
      toSigned_toUnsigned 32 (by norm_num) x (by omega) (by omega)]
  | vInt64 x =>
    simp only [GoVal.wf, decide_eq_true_eq] at hwf
    have hu := toUnsigned_lt 64 x
    have hfb : fromBytesBE 8 (toBytesBE 8 (toUnsigned 64 x)) = toUnsigned 64 x :=
      fromBytesBE_toBytesBE 8 _ (by norm_num at hu ⊢; omega)
    simp [anyToBinary, parseBinaryValue, GoVal.kind, toBytesBE_length, hfb,
      toSigned_toUnsigned 64 (by norm_num) x (by omega) (by omega)]
  | vUInt x =>
    simp only [GoVal.wf, decide_eq_true_eq] at hwf
    have hfb : fromBytesBE 8 (toBytesBE 8 x) = x :=
      fromBytesBE_toBytesBE 8 x (by norm_num; omega)
    simp [anyToBinary, parseBinaryValue, GoVal.kind, toBytesBE_length, hfb]
  | vUInt8 x =>
    simp only [GoVal.wf, decide_eq_true_eq] at hwf
    have hfb : fromBytesBE 1 [x] = x := by simp [fromBytesBE]
    simp [anyToBinary, parseBinaryValue, GoVal.kind, hfb]
  | vUInt16 x =>
    simp only [GoVal.wf, decide_eq_true_eq] at hwf
    have hfb : fromBytesBE 2 (toBytesBE 2 x) = x :=
      fromBytesBE_toBytesBE 2 x (by norm_num; omega)
    simp [anyToBinary, parseBinaryValue, GoVal.kind, toBytesBE_length, hfb]
  | vUInt32 x =>
    simp only [GoVal.wf, decide_eq_true_eq] at hwf
    have hfb : fromBytesBE 4 (toBytesBE 4 x) = x :=
      fromBytesBE_toBytesBE 4 x (by norm_num; omega)
    simp [anyToBinary, parseBinaryValue, GoVal.kind, toBytesBE_length, hfb]
  | vUInt64 x =>
    simp only [GoVal.wf, decide_eq_true_eq] at hwf
    have hfb : fromBytesBE 8 (toBytesBE 8 x) = x :=
      fromBytesBE_toBytesBE 8 x (by norm_num; omega)
    simp [anyToBinary, parseBinaryValue, GoVal.kind, toBytesBE_length, hfb]
  | vFloat32 bits =>
    simp only [GoVal.wf, decide_eq_true_eq] at hwf
    have hfb : fromBytesBE 4 (toBytesBE 4 bits) = bits :=
      fromBytesBE_toBytesBE 4 bits (by norm_num; omega)
    simp [anyToBinary, parseBinaryValue, GoVal.kind, toBytesBE_length, hfb]
  | vFloat64 bits =>
    simp only [GoVal.wf, decide_eq_true_eq] at hwf
    have hfb : fromBytesBE 8 (toBytesBE 8 bits) = bits :=
      fromBytesBE_toBytesBE 8 bits (by norm_num; omega)
    simp [anyToBinary, parseBinaryValue, GoVal.kind, toBytesBE_length, hfb]
  | vBool b => cases b <;> rfl
  | vString s =>
    have h0 : s ≠ [] := by simpa [anyToBinary] using hne
    simp [anyToBinary, parseBinaryValue, GoVal.kind, List.length_eq_zero, h0]
  | vBytes bs =>
    have h0 : bs ≠ [] := by simpa [anyToBinary] using hne
    simp [anyToBinary, parseBinaryValue, GoVal.kind, List.length_eq_zero, h0]

/-- The parse bit width of each integer kind (0 elsewhere): `parseStringValue`
passes 64 for `int`/`uint` and the exact width otherwise. -/
def Kind.bits : Kind → Nat
  | .kInt => 64
  | .kInt8 => 8
  | .kInt16 => 16
  | .kInt32 => 32
  | .kInt64 => 64
  | .kUInt => 64
  | .kUInt8 => 8
  | .kUInt16 => 16
  | .kUInt32 => 32
  | .kUInt64 => 64
  | _ => 0

/-- The base-10 text of an integer-kind raw value (what the claims call
"the base-10 text of its raw value"); `none` on non-integer kinds. -/
def intText : GoVal → Option GoStr
  | .vInt v | .vInt8 v | .vInt16 v | .vInt32 v | .vInt64 v => some (goFormatInt v)
  | .vUInt n | .vUInt8 n | .vUInt16 n | .vUInt32 n | .vUInt64 n => some (goFormatUint n)
  | _ => none

/-- On integer-kind values `anyToString` produces exactly the base-10
text. -/
theorem anyToString_intText (v : GoVal) (s : GoStr) (h : intText v = some s) :
    anyToString v = some s := by
  cases v <;> simpa [intText, anyToString] using h

/-- Exact-match name lookup finds a member whose name is unique. -/
theorem FromName_unique (E : EnumType) (m : Member) (hm : m ∈ E.members)
    (hu : ∀ m2 ∈ E.members, m2.1 = m.1 → m2 = m) :
    E.FromName m.1 = some m := by
  apply find?_unique _ m _ hm (by simp)
  intro b hb hpb
  exact hu b hb (by simpa using hpb)

/-- Exact-match value lookup finds a member whose raw value is unique. -/
theorem FromValue_unique (E : EnumType) (m : Member) (hm : m ∈ E.members)
    (hu : ∀ m2 ∈ E.members, m2.2 = m.2 → m2 = m) :
    E.FromValue m.2 = some m := by
  apply find?_unique _ m _ hm (by simp)
  intro b hb hpb
  exact hu b hb (by simpa using hpb)

/-- A Name-mode demonstration enum (two members over an int64 raw type). -/
def demoName : EnumType :=
  ⟨.kInt64, .formatName, [(asciiOf "Active", .vInt64 1), (asciiOf "Inactive", .vInt64 2)]⟩

/-- A Value-mode demonstration enum with the same member table. -/
def demoValue : EnumType :=
  ⟨.kInt64, .formatValue, [(asciiOf "Active", .vInt64 1), (asciiOf "Inactive", .vInt64 2)]⟩

/-- A Value-mode enum whose only member has raw value 42. -/
def demoAnswer : EnumType :=
  ⟨.kInt64, .formatValue, [(asciiOf "Answer", .vInt64 42)]⟩

/-! ### Claim theorems. -/

/-- C1 (amended): for every supported primitive kind and every in-range
value `v` of that kind, decoding the binary encoding of `v` at the value's
kind returns `v` whenever the encoding is non-empty (the empty string and
the empty byte sequence encode to zero bytes, which binary decode rejects
with the empty-data error), and decoding the textual encoding of `v` at the
value's kind returns `v` (floats are carved out of the text direction by
the claim's float-formatting-precision clause; in the binary direction they
round-trip bit-exactly). -/
theorem c1_roundtrip (v : GoVal) (hwf : v.wf = true) :
    (anyToBinary v ≠ [] → parseBinaryValue (anyToBinary v) v.kind = .ok v) ∧
    (∀ s, anyToString v = some s → parseStringValue s v.kind = .ok v) :=
  ⟨fun hne => parseBinary_anyToBinary v hwf hne,
   fun s hs => parseString_anyToString v hwf s hs⟩

/-- C1 counterexample: the empty string is an in-range value of the string
kind, its binary encoding is the empty byte sequence, and binary decode of
that encoding fails with the empty-data error instead of returning the
value — so the round-trip claim fails as stated. -/
theorem c1_counterexample :
    GoVal.wf (GoVal.vString []) = true ∧
    anyToBinary (GoVal.vString []) = [] ∧
    parseBinaryValue (anyToBinary (GoVal.vString [])) Kind.kString =
      .error "empty binary data" :=
  ⟨rfl, rfl, rfl⟩

/-- C1 witness: the binary and text round-trips evaluated at the concrete
in-range value int16(-2). -/
theorem c1_roundtrip_witness :
    parseBinaryValue (anyToBinary (GoVal.vInt16 (-2))) Kind.kInt16 =
      .ok (GoVal.vInt16 (-2)) ∧
    parseStringValue (goFormatInt (-2)) Kind.kInt16 = .ok (GoVal.vInt16 (-2)) := by
  have h := c1_roundtrip (GoVal.vInt16 (-2)) (by decide)
  exact ⟨h.1 (by decide), h.2 (goFormatInt (-2)) rfl⟩

/-- C5: binary decode of the empty byte sequence fails with the empty-data
error for every primitive target kind, and for every fixed-width target
kind, decode of a non-empty input shorter than the kind's width fails with
that kind's insufficient-data error. -/
theorem c5_width_enforcement :
    (∀ k : Kind, parseBinaryValue [] k = .error "empty binary data") ∧
    (∀ (k : Kind) (w : Nat) (data : List Nat), k.width = some w →
      data ≠ [] → data.length < w →
      parseBinaryValue data k = .error (insufficientMsg k)) := by
  constructor
  · intro k
    cases k <;> rfl
  · intro k w data hw hne hlt
    have h0 : data.length ≠ 0 := by simpa [List.length_eq_zero] using hne
    cases k <;> simp_all [parseBinaryValue, Kind.width, insufficientMsg]

/-- C5 witness: one byte is not enough for an int16 target, and the empty
input is rejected for an int32 target. -/
theorem c5_witness :
    parseBinaryValue [0x12] Kind.kInt16 = .error "insufficient data for int16" ∧
    parseBinaryValue [] Kind.kInt32 = .error "empty binary data" :=
  ⟨c5_width_enforcement.2 Kind.kInt16 2 [0x12] (by decide) (by decide) (by decide),
   c5_width_enforcement.1 Kind.kInt32⟩

/-- C6: the binary encoding is fixed-width big-endian and bit-exact:
int16(0x1234) encodes to exactly the bytes 0x12 0x34, booleans encode to
exactly the single byte 0x01 / 0x00, and every integer or float kind
encodes to exactly its width in bytes with no prefix, padding or version
byte. -/
theorem c6_binary_layout :
    anyToBinary (GoVal.vInt16 0x1234) = [0x12, 0x34] ∧
    anyToBinary (GoVal.vBool true) = [0x01] ∧
    anyToBinary (GoVal.vBool false) = [0x00] ∧
    (∀ (v : GoVal) (w : Nat), v.kind.isNumeric = true → v.kind.width = some w →
      (anyToBinary v).length = w) := by
  refine ⟨by decide, rfl, rfl, ?_⟩
  intro v w hnum hw
  cases v <;> simp_all [GoVal.kind, Kind.isNumeric, Kind.isIntFamily, Kind.isSigned,
    Kind.isUnsigned, Kind.width, anyToBinary, toBytesBE_length]

/-- C6 witness: the general width statement evaluated at a concrete
uint32 value. -/
theorem c6_witness : (anyToBinary (GoVal.vUInt32 5)).length = 4 :=
  c6_binary_layout.2.2.2 (GoVal.vUInt32 5) 4 (by decide) (by decide)

/-- C7: scan coercion into an integer target converts boolean true to 1 and
false to 0, truncates a float source toward zero (12.5 scans to 12, not
13), and fails when the source is a string that is not a valid base-10
numeral. -/
theorem c7_scan_coercions :
    (∀ t : GoVal, t.kind = Kind.kInt →
      Scan (ScanSrc.sBool true) t = .ok (GoVal.vInt 1) ∧
      Scan (ScanSrc.sBool false) t = .ok (GoVal.vInt 0)) ∧
    (∀ (t : GoVal) (mant : Int) (scale : Nat), t.kind = Kind.kInt64 →
      Scan (ScanSrc.sFloat mant scale) t = .ok (GoVal.vInt64 (floatTrunc mant scale))) ∧
    Scan (ScanSrc.sFloat 25 1) (GoVal.vInt64 0) = .ok (GoVal.vInt64 12) ∧
    (∀ (t : GoVal) (s : GoStr) (e : String), t.kind.isIntFamily = true →
      goParseInt s 64 = .error e →
      Scan (ScanSrc.sStr s) t = .error ("failed to parse integer from string: " ++ e)) ∧
    Scan (ScanSrc.sStr (asciiOf "not_a_number")) (GoVal.vInt 0) =
      .error ("failed to parse integer from string: invalid syntax") := by
  refine ⟨?_, ?_, rfl, ?_, rfl⟩
  · intro t ht
    cases t <;> simp only [GoVal.kind] at ht <;> try exact absurd ht (by decide)
    exact ⟨rfl, rfl⟩
  · intro t mant scale ht
    cases t <;> simp only [GoVal.kind] at ht <;> try exact absurd ht (by decide)
    rfl
  · intro t s e hf hpe
    cases t <;> simp_all [GoVal.kind, Kind.isIntFamily, Kind.isSigned, Kind.isUnsigned,
      Scan, scanInt, scanIntCoerce]

/-- C7 witness: the coercions evaluated at concrete targets: booleans into
an int target, the float 12.5 into an int64 target, and a non-numeric
string into an int target. -/
theorem c7_witness :
    Scan (ScanSrc.sBool true) (GoVal.vInt 7) = .ok (GoVal.vInt 1) ∧
    Scan (ScanSrc.sFloat 25 1) (GoVal.vInt64 0) = .ok (GoVal.vInt64 (floatTrunc 25 1)) ∧
    Scan (ScanSrc.sStr (asciiOf "not_a_number")) (GoVal.vInt64 0) =
      .error ("failed to parse integer from string: " ++ "invalid syntax") :=
  ⟨(c7_scan_coercions.1 (GoVal.vInt 7) rfl).1,
   c7_scan_coercions.2.1 (GoVal.vInt64 0) 25 1 rfl,
   c7_scan_coercions.2.2.2.1 (GoVal.vInt64 0) (asciiOf "not_a_number")
     "invalid syntax" (by decide) (by decide)⟩

/-- C8: scanning a nil source returns success and leaves the target's
current value unchanged, for every target kind; no error is produced
and the target is not modified. -/
theorem c8_scan_nil_noop : ∀ t : GoVal, Scan ScanSrc.sNull t = .ok t :=
  fun _ => rfl

/-- C9: text decoding into a numeric target fails when the numeral exceeds
the target width: the text 1000 fails on an int8 target, the text 256 fails
on a uint8 target, and in general any formatted integer outside the target
kind's representable range produces a range error. -/
theorem c9_text_overflow :
    parseStringValue (asciiOf "1000") Kind.kInt8 = .error "value out of range" ∧
    parseStringValue (asciiOf "256") Kind.kUInt8 = .error "value out of range" ∧
    (∀ (k : Kind) (v : Int), k.isSigned = true →
      (v < -(2 ^ (k.bits - 1)) ∨ 2 ^ (k.bits - 1) - 1 < v) →
      parseStringValue (goFormatInt v) k = .error "value out of range") ∧
    (∀ (k : Kind) (n : Nat), k.isUnsigned = true → 2 ^ k.bits - 1 < n →
      parseStringValue (goFormatUint n) k = .error "value out of range") := by
  refine ⟨by decide, by decide, ?_, ?_⟩
  · intro k v hk hr
    cases k <;> simp_all [Kind.isSigned, Kind.bits, parseStringValue] <;>
      rw [goParseInt_goFormatInt_overflow _ _ (by omega)] <;> rfl
  · intro k n hk hr
    cases k <;> simp_all [Kind.isUnsigned, Kind.bits, parseStringValue] <;>
      rw [goParseUint_goFormatUint_overflow _ _ (by omega)] <;> rfl

/-- C9 witness: the general overflow statements evaluated at 1000 into int8
and 256 into uint8. -/
theorem c9_witness :
    parseStringValue (goFormatInt 1000) Kind.kInt8 = .error "value out of range" ∧
    parseStringValue (goFormatUint 256) Kind.kUInt8 = .error "value out of range" :=
  ⟨c9_text_overflow.2.2.1 Kind.kInt8 1000 (by decide) (by decide),
   c9_text_overflow.2.2.2 Kind.kUInt8 256 (by decide) (by decide)⟩

/-- C10: every integer source is funneled through a signed 64-bit
intermediate, so any unsigned source above MaxInt64 is rejected with the
overflows-int64 error for every integer-family target kind — including
uint64 and uint targets that could represent the value exactly. -/
theorem c10_unsigned_funnel (u : Nat) (hu : 2 ^ 63 - 1 < u) (t : GoVal)
    (ht : t.kind.isIntFamily = true) :
    Scan (ScanSrc.sUInt u) t =
      .error ("unsigned integer value " ++ toString u ++ " overflows int64") := by
  cases t <;> simp_all [GoVal.kind, Kind.isIntFamily, Kind.isSigned, Kind.isUnsigned,
    Scan, scanInt, scanIntCoerce]

/-- C10 witness: the value 2^63 is representable in a uint64 target but is
still rejected. -/
theorem c10_witness :
    (2 : Nat) ^ 63 < 2 ^ 64 ∧
    Scan (ScanSrc.sUInt (2 ^ 63)) (GoVal.vUInt64 0) =
      .error ("unsigned integer value " ++ toString ((2 : Nat) ^ 63) ++ " overflows int64") :=
  ⟨by decide, c10_unsigned_funnel (2 ^ 63) (by decide) (GoVal.vUInt64 0) (by decide)⟩

/-- C2: a Name-mode enum's text codec emits exactly the member's canonical
name and decodes it back through lookup-by-name; a Value-mode enum with an
integer raw kind emits exactly the base-10 text of the member's raw value
and decodes it back by parsing the text as the raw kind and resolving
through lookup-by-value. -/
theorem c2_name_value_mode (E : EnumType) (m : Member) (hm : m ∈ E.members) :
    (E.serde = Format.formatName →
      MarshalText E m = .ok m.1 ∧
      ((∀ m2 ∈ E.members, m2.1 = m.1 → m2 = m) → UnmarshalText E m.1 = .ok m)) ∧
    (E.serde = Format.formatValue → ∀ s : GoStr, intText m.2 = some s →
      MarshalText E m = .ok s ∧
      (m.2.kind = E.kind → m.2.wf = true →
        (∀ m2 ∈ E.members, m2.2 = m.2 → m2 = m) → UnmarshalText E s = .ok m)) := by
  constructor
  · intro hfmt
    constructor
    · simp [MarshalText, hfmt]
    · intro hu
      simp [UnmarshalText, hfmt, findNameOrValue, FromName_unique E m hm hu]
  · intro hfmt s hs
    have hstr : anyToString m.2 = some s := anyToString_intText m.2 s hs
    constructor
    · simp [MarshalText, hfmt, hstr]
    · intro hkind hwf hu
      have hparse : parseStringValue s E.kind = .ok m.2 := by
        rw [← hkind]
        exact parseString_anyToString m.2 hwf s hstr
      simp [UnmarshalText, hfmt, hparse, findNameOrValue, FromValue_unique E m hm hu]

/-- C2 witness: the Name-mode enum emits and round-trips the literal name
Active (not the numeral 1), and the Value-mode enum emits and round-trips
the numeral 1. -/
theorem c2_witness :
    MarshalText demoName (asciiOf "Active", .vInt64 1) = .ok (asciiOf "Active") ∧
    UnmarshalText demoName (asciiOf "Active") = .ok (asciiOf "Active", .vInt64 1) ∧
    MarshalText demoValue (asciiOf "Active", .vInt64 1) = .ok (goFormatInt 1) ∧
    UnmarshalText demoValue (goFormatInt 1) = .ok (asciiOf "Active", .vInt64 1) := by
  have hn := c2_name_value_mode demoName (asciiOf "Active", .vInt64 1) (by decide)
  have hv := c2_name_value_mode demoValue (asciiOf "Active", .vInt64 1) (by decide)
  have hnn := hn.1 rfl
  have hvv := hv.2 rfl (goFormatInt 1) rfl
  exact ⟨hnn.1, hnn.2 (by decide), hvv.1, hvv.2 rfl (by decide) (by decide)⟩

/-- C3 (amended): on a lookup miss the text, binary, JSON and SQL decode
paths fail with the unknown-constants error built from the original input
that was supplied to the codec; the structured-node (YAML) decode path
instead builds the error from the decoded intermediate — the decoded name
string in Name mode, and the directly-decoded or converted raw value in
Value mode — not from the original node content. -/
theorem c3_lookup_error_src (E : EnumType) :
    (∀ bs : GoStr, E.serde = .formatName → E.FromName bs = none →
      UnmarshalText E bs = .error (.unknownConstants (.ofStr bs))) ∧
    (∀ (bs : GoStr) (raw : GoVal), E.serde = .formatValue →
      parseStringValue bs E.kind = .ok raw → E.FromValue raw = none →
      UnmarshalText E bs = .error (.unknownConstants (.ofStr bs))) ∧
    (∀ bs : List Nat, E.serde = .formatName → E.FromName bs = none →
      UnmarshalBinary E bs = .error (.unknownConstants (.ofStr bs))) ∧
    (∀ (bs : List Nat) (raw : GoVal), E.serde = .formatValue →
      parseBinaryValue bs E.kind = .ok raw → E.FromValue raw = none →
      UnmarshalBinary E bs = .error (.unknownConstants (.ofStr bs))) ∧
    (∀ (bs : GoStr) (dec : JsonDecoder) (name : GoStr), E.serde = .formatName →
      dec.asStr = .ok name → E.FromName name = none →
      UnmarshalJSON E bs dec = .error (.unknownConstants (.ofStr bs))) ∧
    (∀ (bs : GoStr) (dec : JsonDecoder) (raw : GoVal), E.serde = .formatValue →
      dec.asRaw = .ok raw → E.FromValue raw = none →
      UnmarshalJSON E bs dec = .error (.unknownConstants (.ofStr bs))) ∧
    (∀ (src : ScanSrc) (nv : GoVal), E.serde = .formatName →
      Scan src (.vString []) = .ok nv → E.FromName (asStrVal nv) = none →
      SQLScan E src = .error (.unknownConstants (.ofScan src))) ∧
    (∀ (src : ScanSrc) (raw : GoVal), E.serde = .formatValue →
      Scan src E.kind.zeroVal = .ok raw → E.FromValue raw = none →
      SQLScan E src = .error (.unknownConstants (.ofScan src))) ∧
    (∀ (node : YamlNode) (name : GoStr), E.serde = .formatName →
      node.decodeStr = .ok name → E.FromName name = none →
      UnmarshalYAML E node = .error (.unknownConstants (.ofStr name))) ∧
    (∀ (node : YamlNode) (raw : GoVal), E.serde = .formatValue →
      node.decodeRaw = .ok raw → E.FromValue raw = none →
      UnmarshalYAML E node = .error (.unknownConstants (.ofVal raw))) ∧
    (∀ (node : YamlNode) (value raw : GoVal) (e : String), E.serde = .formatValue →
      node.decodeRaw = .error e → node.decodeAny = .ok value →
      convertToTargetType value E.kind.zeroVal = .ok raw → E.FromValue raw = none →
      UnmarshalYAML E node = .error (.unknownConstants (.ofVal raw))) := by
  refine ⟨?_, ?_, ?_, ?_, ?_, ?_, ?_, ?_, ?_, ?_, ?_⟩
  · intro bs hfmt hmiss
    simp [UnmarshalText, hfmt, findNameOrValue, hmiss]
  · intro bs raw hfmt hparse hmiss
    simp [UnmarshalText, hfmt, hparse, findNameOrValue, hmiss]
  · intro bs hfmt hmiss
    simp [UnmarshalBinary, hfmt, findNameOrValue, hmiss]
  · intro bs raw hfmt hparse hmiss
    simp [UnmarshalBinary, hfmt, hparse, findNameOrValue, hmiss]
  · intro bs dec name hfmt hdec hmiss
    simp [UnmarshalJSON, hfmt, hdec, findNameOrValue, hmiss]
  · intro bs dec raw hfmt hdec hmiss
    simp [UnmarshalJSON, hfmt, hdec, findNameOrValue, hmiss]
  · intro src nv hfmt hscan hmiss
    simp [SQLScan, hfmt, hscan, findNameOrValue, hmiss]
  · intro src raw hfmt hscan hmiss
    simp [SQLScan, hfmt, hscan, findNameOrValue, hmiss]
  · intro node name hfmt hdec hmiss
    simp [UnmarshalYAML, hfmt, hdec, findNameOrValue, hmiss]
  · intro node raw hfmt hdec hmiss
    simp [UnmarshalYAML, hfmt, hdec, findNameOrValue, hmiss]
  · intro node value raw e hfmt hdecR hdecA hconv hmiss
    simp [UnmarshalYAML, hfmt, hdecR, hdecA, hconv, findNameOrValue, hmiss]

/-- C3 counterexample: a Value-mode YAML decode whose node decodes (via the
untyped fallback) from the original boolean value true; the lookup-miss
error references the converted raw intermediate int64(0), not the original
input value true, so the claim as stated fails for the structured-node
codec. -/
theorem c3_counterexample :
    UnmarshalYAML demoValue
        ⟨.error "type mismatch", .error "not a string", .ok (GoVal.vBool true)⟩ =
      .error (.unknownConstants (.ofVal (GoVal.vInt64 0))) ∧
    SrcRef.ofVal (GoVal.vInt64 0) ≠ SrcRef.ofVal (GoVal.vBool true) := by
  exact ⟨by decide, by decide⟩

/-- C3 witness: the per-codec error sources evaluated on concrete misses:
an unknown name through text decode, the unmapped value 99 through binary,
JSON and SQL decode, and an unmapped direct YAML decode referencing the
decoded intermediate. -/
theorem c3_witness :
    UnmarshalText demoName (asciiOf "Bogus") =
      .error (.unknownConstants (.ofStr (asciiOf "Bogus"))) ∧
    UnmarshalBinary demoValue (anyToBinary (GoVal.vInt64 99)) =
      .error (.unknownConstants (.ofStr (anyToBinary (GoVal.vInt64 99)))) ∧
    UnmarshalJSON demoValue (asciiOf "99") ⟨.error "not a string", .ok (GoVal.vInt64 99)⟩ =
      .error (.unknownConstants (.ofStr (asciiOf "99"))) ∧
    SQLScan demoValue (ScanSrc.sInt 99) =
      .error (.unknownConstants (.ofScan (ScanSrc.sInt 99))) ∧
    UnmarshalYAML demoValue ⟨.ok (GoVal.vInt64 99), .error "no", .error "no"⟩ =
      .error (.unknownConstants (.ofVal (GoVal.vInt64 99))) :=
  ⟨(c3_lookup_error_src demoName).1 (asciiOf "Bogus") rfl (by decide),
   (c3_lookup_error_src demoValue).2.2.2.1 (anyToBinary (GoVal.vInt64 99))
     (GoVal.vInt64 99) rfl (by decide) (by decide),
   (c3_lookup_error_src demoValue).2.2.2.2.2.1 (asciiOf "99")
     ⟨.error "not a string", .ok (GoVal.vInt64 99)⟩ (GoVal.vInt64 99) rfl rfl (by decide),
   (c3_lookup_error_src demoValue).2.2.2.2.2.2.2.1 (ScanSrc.sInt 99)
     (GoVal.vInt64 99) rfl (by decide) (by decide),
   (c3_lookup_error_src demoValue).2.2.2.2.2.2.2.2.2.1
     ⟨.ok (GoVal.vInt64 99), .error "no", .error "no"⟩ (GoVal.vInt64 99) rfl rfl (by decide)⟩

/-- C4: the claim describes the intended conversion (and the repo's own
test expects `convertToTargetType(int64(42), &target)` to leave 42 in an
integer target), but the reflection-based implementation reads
`v.Int()` from the zero-initialized target instead of the decoded source,
so the target keeps its zero value: converting the decoded integer 42 into
an int64 target yields 0, and the YAML fallback path then looks up 0 and
misses even when 42 is a declared member value. -/
theorem c4_convert_drops_value :
    convertToTargetType (GoVal.vInt64 42) (GoVal.vInt64 0) = .ok (GoVal.vInt64 0) ∧
    GoVal.vInt64 0 ≠ GoVal.vInt64 42 ∧
    UnmarshalYAML demoAnswer
        ⟨.error "cannot decode", .error "not a string", .ok (GoVal.vInt64 42)⟩ =
      .error (.unknownConstants (.ofVal (GoVal.vInt64 0))) := by
  exact ⟨by decide, by decide, by decide⟩

end Goenums
